import Mathlib

/-!
Verification development for the Jeux game server (ANSI C, pthreads).

Each definition below is a shallow embedding of the corresponding C function,
translated directly from the source files:
  protocol.c        - proto_recv_packet, rio_readn (csapp short-count semantics)
  game.c            - check, game_apply_move, game_parse_move, game_unparse_state
  invitation.c      - inv_accept and the invitation record
  client.c          - client_revoke_invitation, client_accept_invitation,
                      client_make_move over an explicit world state
  client_registry.c - creg_register, creg_unregister, creg_wait_for_empty,
                      with the POSIX semaphore modelled by its integer value
  player.c          - player_post_result (double arithmetic modelled exactly
                      over the rationals; the C cast (int) is truncation
                      toward zero)
  main.c            - option processing of main

C functions returning -1 on failure are modelled with Option (none = -1).
Packet transmission over the network is modelled as always succeeding;
machine integers are modelled by Nat/Int (all quantities involved stay far
below any overflow boundary: ratings, list indices, 8- and 16-bit header
fields are used as received).
-/

namespace Jeux

/-! ### Roles and invitation states (game.h, invitation.h enums) -/

def NULL_ROLE : Int := 0
def FIRST_PLAYER_ROLE : Int := 1
def SECOND_PLAYER_ROLE : Int := 2

def INV_OPEN_STATE : Nat := 0
def INV_ACCEPTED_STATE : Nat := 1
def INV_CLOSED_STATE : Nat := 2

/-! ### Protocol module (protocol.c)

The connection input is the list of bytes that can still be read before the
stream ends; ioErr says whether, once those bytes are exhausted, read(2)
fails with an error (as opposed to returning the EOF indication 0).
-/

structure ConnIn where
  bytes : List Nat
  ioErr : Bool
deriving DecidableEq, Repr

/-- csapp rio_readn: reads up to n bytes; returns the number of bytes
actually read (a short count, possibly 0, when the stream ends early),
or -1 when read(2) fails with an error.  Result: (return value, bytes
delivered into the caller buffer, remaining connection input). -/
def rio_readn (c : ConnIn) (n : Nat) : Int × List Nat × ConnIn :=
  if n ≤ c.bytes.length then ((n : Int), c.bytes.take n, ⟨c.bytes.drop n, c.ioErr⟩)
  else if c.ioErr then (-1, [], ⟨[], c.ioErr⟩)
  else ((c.bytes.length : Int), c.bytes, ⟨[], c.ioErr⟩)

/-- A short read of k bytes overwrites only the first k bytes of the
caller-supplied header buffer; the rest keeps its previous contents. -/
def overwrite (buf incoming : List Nat) : List Nat :=
  incoming ++ buf.drop incoming.length

/-- ntohs(hdr->size): the size field occupies bytes 4 and 5 of the 16-byte
JEUX_PACKET_HEADER, in network byte order. -/
def hdr_size_field (hdr : List Nat) : Nat :=
  256 * hdr.getD 4 0 + hdr.getD 5 0

structure RecvResult where
  ret : Int
  hdr : List Nat
  payload : Option (List Nat)
  conn : ConnIn
deriving DecidableEq, Repr

/-- proto_recv_packet (protocol.c lines 211-235).  hdrbuf is the caller's
16-byte header storage, which persists between calls in the service loop.
The C code tests only for rio_readn == -1, so a short count (EOF) falls
through to the success path. -/
def proto_recv_packet (hdrbuf : List Nat) (c : ConnIn) : RecvResult :=
  let r1 := rio_readn c 16
  if r1.1 = -1 then ⟨-1, hdrbuf, none, r1.2.2⟩
  else
    let hdr := overwrite hdrbuf r1.2.1
    let sz := hdr_size_field hdr
    if sz ≠ 0 then
      let r2 := rio_readn r1.2.2 sz
      if r2.1 = -1 then ⟨-1, hdr, none, r2.2.2⟩
      else ⟨0, hdr, some r2.2.1, r2.2.2⟩
    else ⟨0, hdr, none, r1.2.2⟩

/-- jeux_client_service (server.c line 79) runs
while(!(n = proto_recv_packet(connfd, &header, ...))): the body (one more
request dispatch) runs exactly when the return value is 0. -/
def service_loop_continues (ret : Int) : Bool :=
  ret == 0

/-- An all-zero 16-byte header buffer (a possible previous content of the
stack variable header in jeux_client_service). -/
def zero_hdr : List Nat := List.replicate 16 0

/-! ### Game module (game.c) -/

structure GameMove where
  spot : Int
  role : Int
deriving DecidableEq, Repr

structure Game where
  winner : Int
  nextmover : Int
  board : List Int
deriving DecidableEq, Repr

/-- game_create: board all 0, winner -1 (game not ended), nextmover FIRST. -/
def game_create : Game := ⟨-1, 1, List.replicate 9 0⟩

/-- check (game.c lines 332-372): first tests whether the board is full
(returns 0, tied), then the eight winning patterns in the source's order,
else -1 (no winner yet). -/
def check (b : List Int) : Int :=
  let g := fun i => b.getD i 0
  if (List.range 9).all (fun i => g i != 0) then 0
  else if g 2 = g 4 ∧ g 2 = g 6 ∧ g 2 ≠ 0 then g 2
  else if g 0 = g 4 ∧ g 0 = g 8 ∧ g 0 ≠ 0 then g 0
  else if g 2 = g 5 ∧ g 2 = g 8 ∧ g 2 ≠ 0 then g 2
  else if g 1 = g 4 ∧ g 1 = g 7 ∧ g 1 ≠ 0 then g 1
  else if g 0 = g 3 ∧ g 0 = g 6 ∧ g 0 ≠ 0 then g 0
  else if g 6 = g 7 ∧ g 6 = g 8 ∧ g 6 ≠ 0 then g 6
  else if g 3 = g 4 ∧ g 3 = g 5 ∧ g 3 ≠ 0 then g 3
  else if g 0 = g 1 ∧ g 0 = g 2 ∧ g 0 ≠ 0 then g 0
  else -1

/-- game_apply_move (game.c lines 102-142).  Note: the next mover is not
consulted; only spot range, role range, game-not-ended and cell-free are
checked. -/
def game_apply_move (g : Game) (m : GameMove) : Option Game :=
  if m.spot < 0 ∨ 8 < m.spot then none
  else if m.role < 1 ∨ 2 < m.role then none
  else if g.winner ≠ -1 then none
  else if g.board.getD m.spot.toNat 0 ≠ 0 then none
  else
    let b := g.board.set m.spot.toNat m.role
    some ⟨check b, if g.nextmover = 1 then 2 else 1, b⟩

/-- game_is_over (game.c line 210). -/
def game_is_over (g : Game) : Bool :=
  g.winner != -1

/-- game_get_winner (game.c line 225). -/
def game_get_winner (g : Game) : Int :=
  g.winner

/-- atoi applied to the one-character string built from the first character
of the move string (game.c lines 257-260): a digit yields its value,
anything else yields 0. -/
def atoi_first (s : List Char) : Int :=
  match s with
  | [] => 0
  | ch :: _ => if 48 ≤ ch.toNat ∧ ch.toNat ≤ 57 then (ch.toNat : Int) - 48 else 0

/-- game_parse_move (game.c lines 245-262).  The next-mover comparison is
conjoined with role == NULL_ROLE, so it can only fire for role 0. -/
def game_parse_move (g : Game) (role : Int) (s : List Char) : Option GameMove :=
  if role < 0 ∨ 2 < role then none
  else if role = 0 ∧ role ≠ g.nextmover then none
  else some ⟨atoi_first s - 1, role⟩

/-- role_to_xo (game.c lines 375-385). -/
def role_to_xo (r : Int) : Char :=
  if r = 1 then 'X' else if r = 2 then 'O' else if r = 0 then ' ' else Char.ofNat 0

/-- One board row as printed by fill_string: "c|c|c\n". -/
def row_chars (g : Nat → Int) (j : Nat) : List Char :=
  [role_to_xo (g j), '|', role_to_xo (g (j + 1)), '|', role_to_xo (g (j + 2)), '\n']

def dashes_line : List Char := ['-', '-', '-', '-', '-', '\n']

/-- fill_string (game.c lines 299-324): the 40 visible characters of the
rendered state (the terminating NUL at index 40 is not part of the string). -/
def fill_string (b : List Int) (next : Int) : List Char :=
  let g := fun i => b.getD i 0
  row_chars g 0 ++ dashes_line ++ row_chars g 3 ++ dashes_line ++ row_chars g 6
    ++ [role_to_xo next] ++ " to move\n".toList

/-- game_unparse_state (game.c lines 187-202). -/
def game_unparse_state (g : Game) : List Char :=
  fill_string g.board g.nextmover

/-! ### Invitation module (invitation.c)

Clients are identified by a Nat (their index in the world's client table);
invitation objects are identified by a Nat index into the world's
invitation table.
-/

structure Invitation where
  state : Nat
  source : Nat
  target : Nat
  source_role : Int
  target_role : Int
  game : Option Game
deriving DecidableEq, Repr

instance : Inhabited Invitation := ⟨⟨INV_OPEN_STATE, 0, 0, 0, 0, none⟩⟩

/-- inv_accept (invitation.c lines 161-178): OPEN required; transitions to
ACCEPTED and installs a fresh game. -/
def inv_accept (inv : Invitation) : Option Invitation :=
  if inv.state ≠ INV_OPEN_STATE then none
  else some { inv with state := INV_ACCEPTED_STATE, game := some game_create }

/-! ### Client module (client.c)

World state: the invitation table, each client's sparse invitation list
(slot i holds the invitation reference advertised under local id i), and
the rating of each client's logged-in player.  Outbound packets are
listed as (destination client, packet); transmission always succeeds in
the model.
-/

inductive PktType
  | ack
  | nack
  | invited
  | revoked
  | accepted
  | declined
  | moved
  | resigned
  | ended
deriving DecidableEq, Repr

structure Packet where
  ptype : PktType
  pid : Nat
  prole : Int
  payload : Option (List Char)
deriving DecidableEq, Repr

structure World where
  invs : List Invitation
  lists : List (List (Option Nat))
  ratings : List Int
deriving DecidableEq, Repr

def invOf (w : World) (ref : Nat) : Invitation :=
  w.invs.getD ref default

def listOf (w : World) (c : Nat) : List (Option Nat) :=
  w.lists.getD c []

/-- PLAYER_INITIAL_RATING is 1500 (player.h). -/
def ratingOf (w : World) (c : Nat) : Int :=
  w.ratings.getD c 1500

def setInv (w : World) (ref : Nat) (inv : Invitation) : World :=
  { w with invs := w.invs.set ref inv }

def setList (w : World) (c : Nat) (l : List (Option Nat)) : World :=
  { w with lists := w.lists.set c l }

def setRating (w : World) (c : Nat) (r : Int) : World :=
  { w with ratings := w.ratings.set c r }

/-- client_remove_invitation (client.c lines 349-364): scan the list for
the first slot holding this invitation, null it, and return the index it
occupied; fail if the invitation is not in the list. -/
def remove_invitation : List (Option Nat) → Nat → Option (List (Option Nat) × Nat)
  | [], _ => none
  | s :: rest, ref =>
    if s = some ref then some (none :: rest, 0)
    else
      match remove_invitation rest ref with
      | none => none
      | some (l, i) => some (s :: l, i + 1)

/-- The index-search loops in client_accept_invitation / client_make_move
(scan a peer's list for the slot holding a given invitation). -/
def find_slot : List (Option Nat) → Nat → Option Nat
  | [], _ => none
  | s :: rest, ref =>
    if s = some ref then some 0 else (find_slot rest ref).map (· + 1)

/-- client_revoke_invitation (client.c lines 446-515).  Checks, in source
order: id within invlength, slot non-empty, caller is the source,
inv_get_game == NULL (the OPEN test); then removes the invitation from the
caller's list and from the target's list, and sends REVOKED to the target
with the index the invitation occupied in the target's list.  Result:
(new world, destination client, packet); none models the -1 returns. -/
def client_revoke_invitation (w : World) (c : Nat) (id : Nat) :
    Option (World × Nat × Packet) :=
  let lst := listOf w c
  if lst.length ≤ id then none
  else
    match lst.getD id none with
    | none => none
    | some ref =>
      let inv := invOf w ref
      if c ≠ inv.source then none
      else if inv.game ≠ none then none
      else
        match remove_invitation lst ref with
        | none => none
        | some (lst', _sourceid) =>
          let w1 := setList w c lst'
          match remove_invitation (listOf w1 inv.target) ref with
          | none => none
          | some (tl', targetid) =>
            let w2 := setList w1 inv.target tl'
            some (w2, inv.target, ⟨PktType.revoked, targetid, 0, none⟩)

/-- client_accept_invitation (client.c lines 635-740).  Checks, in source
order: id within invlength, slot non-empty, caller is the target,
inv_get_game == NULL, invitation present in the source's list (index kept
for the ACCEPTED header); then inv_accept.  On success: if the source's
role is FIRST the ACCEPTED packet to the source carries the rendered
initial state and *strp is NULL; otherwise the packet has no payload and
*strp receives the rendered initial state.  Result:
(new world, (destination, packet), strp). -/
def client_accept_invitation (w : World) (c : Nat) (id : Nat) :
    Option (World × (Nat × Packet) × Option (List Char)) :=
  let lst := listOf w c
  if lst.length ≤ id then none
  else
    match lst.getD id none with
    | none => none
    | some ref =>
      let inv := invOf w ref
      if c ≠ inv.target then none
      else if inv.game ≠ none then none
      else
        match find_slot (listOf w inv.source) ref with
        | none => none
        | some index =>
          match inv_accept inv with
          | none => none
          | some inv' =>
            let w1 := setInv w ref inv'
            let state := game_unparse_state game_create
            if inv.source_role = 1 then
              some (w1, (inv.source, ⟨PktType.accepted, index, 0, some state⟩), none)
            else
              some (w1, (inv.source, ⟨PktType.accepted, index, 0, none⟩), some state)

/-! ### Player module (player.c): player_post_result

The C code computes E1, E2 and the deltas in IEEE binary64 (double).
Two readings are given here.

player_post_result below carries out the same formula exactly over the
rationals.  This agrees with the C whenever every intermediate double is
exactly representable - in particular at equal ratings (exponent 0,
E = 0.5 exactly), the situation of the concrete scenarios used in this
file - but NOT in general: at rating gaps of 400*16 and beyond, double
rounding makes the C's two deltas fail to be exact negatives of each
other, which the exact-rational reading cannot reproduce.

player_post_result_fp further below models the binary64 computation
itself: every operation rounds to a 53-bit significand, round to nearest,
ties to even.  The exponent is unbounded (no overflow or subnormals: all
values arising in this computation are mid-range), and pow is modelled as
correctly rounded; the outcome at the inputs used in the C4 theorem is
robust to a 1-ulp error in pow.

The (int) casts in R1 += (int)(32*(S1-E1)) truncate toward zero;
(R2-R1)/400 in the C is integer division of ints, i.e. Int.tdiv.
-/

/-- The C cast (int) applied to an exact rational value: truncation toward
zero. -/
def ratTrunc (x : ℚ) : Int := Int.tdiv x.num (x.den : Int)

/-- E1 = 1/(1 + pow(10, (R2-R1)/400)) (player.c line 546) read as an exact
rational; the exponent is C integer division.  The C's double computation
of the same expression is modelled by pow10fp/fdiv/fadd below. -/
def eloExpected (r1 r2 : Int) : ℚ :=
  1 / (1 + (10 : ℚ) ^ (Int.tdiv (r2 - r1) 400))

/-- player_post_result (player.c lines 527-561) on the two ratings, with
the double arithmetic read as exact rational arithmetic (see the section
comment: exact agreement with the C at the equal-rating inputs used in
this file; player_post_result_fp is the binary64 model):
result 0 = draw, 1 = player1 won, 2 = player2 won, anything else leaves
both ratings unchanged (the early return).  Returns the updated
(rating1, rating2). -/
def player_post_result (r1 r2 result : Int) : Int × Int :=
  if result ≠ 0 ∧ result ≠ 1 ∧ result ≠ 2 then (r1, r2)
  else
    let S1 : ℚ := if result = 0 then 1/2 else if result = 1 then 1 else 0
    let S2 : ℚ := if result = 0 then 1/2 else if result = 1 then 0 else 1
    (r1 + ratTrunc (32 * (S1 - eloExpected r1 r2)),
     r2 + ratTrunc (32 * (S2 - eloExpected r2 r1)))

/-! #### IEEE binary64 model of the same computation

A double is a dyadic rational m * 2^e with |m| < 2^53.  The exponent is
unbounded in the model: every value in this computation lies far inside
the normal range, so overflow and subnormal rounding never occur.
Rounding is to nearest, ties to even, performed in a single step at the
final 53-bit precision.
-/

structure Dyadic where
  m : Int
  e : Int
deriving DecidableEq, Repr

/-- Smallest k with n < 2^(53+k): the number of excess significand bits. -/
def excessBits : Nat → Nat → Nat → Nat
  | 0, _, k => k
  | fuel + 1, n, k => if n < 2 ^ (53 + k) then k else excessBits fuel n (k + 1)

/-- Round a dyadic value to a 53-bit significand, to nearest, ties to
even.  Exact when the significand already fits. -/
def roundDyadic (d : Dyadic) : Dyadic :=
  let n := d.m.natAbs
  let k := excessBits 5000 n 0
  if k = 0 then d
  else
    let divisor := (2 : Nat) ^ k
    let q := n / divisor
    let r := n % divisor
    let half := divisor / 2
    let q' := if r < half then q
      else if half < r then q + 1
      else if q % 2 = 0 then q else q + 1
    ⟨if d.m < 0 then -(q' : Int) else (q' : Int), d.e + (k : Int)⟩

/-- Scale the positive fraction p/q (doubling p or q) until
2^52 <= p/q < 2^53, tracking the binary exponent. -/
def scaleLoop : Nat → Nat → Nat → Int → Nat × Nat × Int
  | 0, p, q, e => (p, q, e)
  | fuel + 1, p, q, e =>
    if p < q * 2 ^ 52 then scaleLoop fuel (2 * p) q (e - 1)
    else if q * 2 ^ 53 ≤ p then scaleLoop fuel p (2 * q) (e + 1)
    else (p, q, e)

/-- Round the positive rational p/q to binary64: scale into the 53-bit
significand range, then round to nearest, ties to even. -/
def roundRatPos (p q : Nat) : Dyadic :=
  if p = 0 ∨ q = 0 then ⟨0, 0⟩
  else
    let s := scaleLoop 5000 p q 0
    let m0 := s.1 / s.2.1
    let r := s.1 % s.2.1
    let m' := if 2 * r < s.2.1 then m0
      else if s.2.1 < 2 * r then m0 + 1
      else if m0 % 2 = 0 then m0 else m0 + 1
    ⟨(m' : Int), s.2.2⟩

def fneg (a : Dyadic) : Dyadic := ⟨-a.m, a.e⟩

/-- Double addition: exact dyadic sum, then one rounding. -/
def fadd (a b : Dyadic) : Dyadic :=
  if a.e ≤ b.e then roundDyadic ⟨a.m + b.m * 2 ^ (b.e - a.e).toNat, a.e⟩
  else roundDyadic ⟨a.m * 2 ^ (a.e - b.e).toNat + b.m, b.e⟩

def fsub (a b : Dyadic) : Dyadic := fadd a (fneg b)

/-- Double multiplication: exact product, then one rounding. -/
def fmul (a b : Dyadic) : Dyadic := roundDyadic ⟨a.m * b.m, a.e + b.e⟩

/-- Double division: the exact quotient correctly rounded. -/
def fdiv (a b : Dyadic) : Dyadic :=
  let sgn : Int := if (a.m < 0) ≠ (b.m < 0) then -1 else 1
  let d := a.e - b.e
  let p := if 0 ≤ d then a.m.natAbs * 2 ^ d.toNat else a.m.natAbs
  let q := if 0 ≤ d then b.m.natAbs else b.m.natAbs * 2 ^ (-d).toNat
  let r := roundRatPos p q
  ⟨sgn * r.m, r.e⟩

/-- The C cast (int) on a double: truncation toward zero. -/
def ftrunc (a : Dyadic) : Int :=
  if 0 ≤ a.e then a.m * 2 ^ a.e.toNat else Int.tdiv a.m (2 ^ (-a.e).toNat)

/-- pow(10, k) for integer k, correctly rounded (10^k for 0 <= k <= 22 is
exactly representable; glibc returns the exact value there). -/
def pow10fp (k : Int) : Dyadic :=
  if 0 ≤ k then roundDyadic ⟨(10 : Int) ^ k.toNat, 0⟩
  else roundRatPos 1 (10 ^ (-k).toNat)

/-- player_post_result (player.c lines 527-561) with the double
arithmetic modelled as IEEE binary64: S1, S2, 1 and 32 are exact doubles;
E1 = 1/(1 + pow(10, (R2-R1)/400)) and the deltas (int)(32*(S-E)) round at
every operation. -/
def player_post_result_fp (r1 r2 result : Int) : Int × Int :=
  if result ≠ 0 ∧ result ≠ 1 ∧ result ≠ 2 then (r1, r2)
  else
    let S1 : Dyadic := if result = 0 then ⟨1, -1⟩ else if result = 1 then ⟨1, 0⟩ else ⟨0, 0⟩
    let S2 : Dyadic := if result = 0 then ⟨1, -1⟩ else if result = 1 then ⟨0, 0⟩ else ⟨1, 0⟩
    let E1 := fdiv ⟨1, 0⟩ (fadd ⟨1, 0⟩ (pow10fp (Int.tdiv (r2 - r1) 400)))
    let E2 := fdiv ⟨1, 0⟩ (fadd ⟨1, 0⟩ (pow10fp (Int.tdiv (r1 - r2) 400)))
    (r1 + ftrunc (fmul ⟨32, 0⟩ (fsub S1 E1)),
     r2 + ftrunc (fmul ⟨32, 0⟩ (fsub S2 E2)))

/-- client_make_move (client.c lines 1031-1319).  Checks: id within
invlength, slot non-empty, invitation holds a game.  Then the two
branches: caller is the source (scan the target's list for the opponent
index) or the caller is the target.  In the target branch the C scan of
the source's list stores its result into targetid and never assigns
sourceid, which stays 0 (client.c lines 1196-1201); the MOVED packet and
the opponent's ENDED packet are then sent to the source with header id
sourceid.  When the move ends the game, ENDED packets go to both parties
with role = game_get_winner, the invitation is removed from both lists,
and the result is posted as
player_post_result(player-of-target, player-of-source, winner).
Result: (new world, emitted packets in order). -/
def client_make_move (w : World) (c : Nat) (id : Nat) (mv : List Char) :
    Option (World × List (Nat × Packet)) :=
  let lst := listOf w c
  if lst.length ≤ id then none
  else
    match lst.getD id none with
    | none => none
    | some ref =>
      let inv := invOf w ref
      match inv.game with
      | none => none
      | some game =>
        if c = inv.source then
          match find_slot (listOf w inv.target) ref with
          | none => none
          | some targetid =>
            match game_parse_move game inv.source_role mv with
            | none => none
            | some pmove =>
              match game_apply_move game pmove with
              | none => none
              | some game' =>
                let w1 := setInv w ref { inv with game := some game' }
                let state := game_unparse_state game'
                let moved := (inv.target, (⟨PktType.moved, targetid, 0, some state⟩ : Packet))
                if game_is_over game' then
                  match remove_invitation (listOf w1 c) ref with
                  | none => none
                  | some (cl', _sid) =>
                    let w2 := setList w1 c cl'
                    match remove_invitation (listOf w2 inv.target) ref with
                    | none => none
                    | some (tl', _tid) =>
                      let w3 := setList w2 inv.target tl'
                      let pr := player_post_result (ratingOf w3 inv.target)
                                  (ratingOf w3 inv.source) (game_get_winner game')
                      let w4 := setRating (setRating w3 inv.target pr.1) inv.source pr.2
                      some (w4,
                        [moved,
                         (c, ⟨PktType.ended, id, game_get_winner game', none⟩),
                         (inv.target, ⟨PktType.ended, targetid, game_get_winner game', none⟩)])
                else some (w1, [moved])
        else
          match find_slot (listOf w inv.source) ref with
          | none => none
          | some i =>
            let _targetid := i
            let sourceid := 0
            match game_parse_move game inv.target_role mv with
            | none => none
            | some pmove =>
              match game_apply_move game pmove with
              | none => none
              | some game' =>
                let w1 := setInv w ref { inv with game := some game' }
                let state := game_unparse_state game'
                let moved := (inv.source, (⟨PktType.moved, sourceid, 0, some state⟩ : Packet))
                if game_is_over game' then
                  match remove_invitation (listOf w1 c) ref with
                  | none => none
                  | some (cl', _sid) =>
                    let w2 := setList w1 c cl'
                    match remove_invitation (listOf w2 inv.source) ref with
                    | none => none
                    | some (sl', _tid) =>
                      let w3 := setList w2 inv.source sl'
                      let pr := player_post_result (ratingOf w3 inv.target)
                                  (ratingOf w3 inv.source) (game_get_winner game')
                      let w4 := setRating (setRating w3 inv.target pr.1) inv.source pr.2
                      some (w4,
                        [moved,
                         (c, ⟨PktType.ended, id, game_get_winner game', none⟩),
                         (inv.source, ⟨PktType.ended, sourceid, game_get_winner game', none⟩)])
                else some (w1, [moved])

/-! ### Client registry (client_registry.c)

The semaphore used for the empty barrier is modelled by its integer value:
P succeeds (decrementing) only when the value is positive and otherwise
blocks; V increments.  creg_init initializes the semaphore to 1
(Sem_init(&cr->empty, 0, 1)).
-/

structure Registry where
  buf : List (Option Nat)
  count : Int
  emptySem : Int
deriving DecidableEq, Repr

/-- creg_init (client_registry.c lines 20-32) with capacity MAX_CLIENTS. -/
def creg_init (cap : Nat) : Registry :=
  ⟨List.replicate cap none, 0, 1⟩

inductive RegOutcome
  | ok (r : Registry)
  | full (r : Registry)
  | blockedOnEmptySem
deriving DecidableEq, Repr

/-- The slot-insertion loop of creg_register: first NULL slot receives the
client. -/
def insert_first_free : List (Option Nat) → Nat → Option (List (Option Nat))
  | [], _ => none
  | none :: rest, c => some (some c :: rest)
  | some x :: rest, c => (insert_first_free rest c).map (some x :: ·)

/-- creg_register (client_registry.c lines 63-82): scan for a free slot
(no free slot: return NULL); on the 0 to 1 transition of the count,
P(&cr->empty) arms the barrier. -/
def creg_register (r : Registry) (c : Nat) : RegOutcome :=
  match insert_first_free r.buf c with
  | none => .full r
  | some buf' =>
    if r.count = 0 then
      if r.emptySem ≤ 0 then .blockedOnEmptySem
      else .ok ⟨buf', r.count + 1, r.emptySem - 1⟩
    else .ok ⟨buf', r.count + 1, r.emptySem⟩

/-- The removal loop of creg_unregister. -/
def remove_client : List (Option Nat) → Nat → Option (List (Option Nat))
  | [], _ => none
  | s :: rest, c =>
    if s = some c then some (none :: rest)
    else (remove_client rest c).map (s :: ·)

/-- creg_unregister (client_registry.c lines 98-115): remove the client
(not registered: -1, modelled none); on the transition to count 0,
V(&cr->empty) releases the barrier. -/
def creg_unregister (r : Registry) (c : Nat) : Option Registry :=
  match remove_client r.buf c with
  | none => none
  | some buf' =>
    let cnt := r.count - 1
    if cnt = 0 then some ⟨buf', cnt, r.emptySem + 1⟩
    else some ⟨buf', cnt, r.emptySem⟩

/-- creg_wait_for_empty (client_registry.c lines 204-206): a single
P(&cr->empty).  some = the call returns (consuming the token); none = the
caller blocks. -/
def creg_wait_for_empty (r : Registry) : Option Registry :=
  if 0 < r.emptySem then some { r with emptySem := r.emptySem - 1 }
  else none

/-! ### main (main.c lines 300-375): option processing -/

inductive MainOutcome
  | earlyExit (code : Int)
  | listen (port : String)
deriving DecidableEq, Repr

/-- The option-scanning loop of main (main.c lines 309-318): starting at
index 1, the first "-p" that is not the last argument yields the following
argument. -/
def find_port_loop (argv : List String) (index : Nat) : Option String :=
  if index < argv.length then
    if argv.getD index "" = "-p" ∧ index < argv.length - 1 then
      some (argv.getD (index + 1) "")
    else find_port_loop argv (index + 1)
  else none
termination_by argv.length - index
decreasing_by omega

/-- main (main.c lines 300-375): argc < 3 exits with status 0; a missing
port value exits with status 0; otherwise the server binds the listening
socket (with argv[2] as the port string, main.c line 352) and serves. -/
def main_model (argv : List String) : MainOutcome :=
  if argv.length < 3 then .earlyExit 0
  else
    match find_port_loop argv 1 with
    | none => .earlyExit 0
    | some _ => .listen (argv.getD 2 "")

/-- The process exit status an outcome leads to before entering the accept
loop; a .listen outcome exits only later (via the SIGHUP-driven
terminate). -/
def mainExitCode : MainOutcome → Option Int
  | .earlyExit code => some code
  | .listen _ => none

/-! ### Statement-side notions and concrete test worlds -/

/-- The eight tic-tac-toe winning lines (0-indexed, row-major): r has
three-in-a-row on board b. -/
def lineWin (b : List Int) (r : Int) : Bool :=
  [[0, 1, 2], [3, 4, 5], [6, 7, 8], [0, 3, 6], [1, 4, 7], [2, 5, 8], [0, 4, 8],
      [2, 4, 6]].any
    fun t => t.all fun i => b.getD i 0 == r

/-- No -p option with a value after it among the arguments (argv index 0
is the program name, skipped by the scan). -/
def no_port_value (argv : List String) : Prop :=
  ∀ i, 1 ≤ i → i + 1 < argv.length → argv.getD i "" ≠ "-p"

/-- The game state of C10's intermediate position: X has just taken cell 1,
so the board records one X and nextmover is SECOND. -/
def c10_g1 : Game := ⟨-1, 2, [1, 0, 0, 0, 0, 0, 0, 0, 0]⟩

/-- C2 scenario (spec scenario 3): source (client 0) plays FIRST (X) and is
about to complete the top row; target (client 1) plays SECOND.  Both
ratings 1500. -/
def c2_game : Game := ⟨-1, 1, [1, 1, 0, 2, 2, 0, 0, 0, 0]⟩

def c2_inv : Invitation := ⟨INV_ACCEPTED_STATE, 0, 1, 1, 2, some c2_game⟩

def c2_world : World := ⟨[c2_inv], [[some 0], [some 0]], [1500, 1500]⟩

/-- C5 scenario: eight cells filled without a winner; X (role 1, the
source, client 0) is about to play cell 3, completing the top row and
filling the board. -/
def c5_game : Game := ⟨-1, 1, [1, 1, 0, 2, 2, 1, 2, 1, 2]⟩

def c5_inv : Invitation := ⟨INV_ACCEPTED_STATE, 0, 1, 1, 2, some c5_game⟩

def c5_world : World := ⟨[c5_inv], [[some 0], [some 0]], [1500, 1500]⟩

/-- C6 scenario: two invitations between source (client 0) and target
(client 1); the accepted one (reference 1) sits at local index 1 in both
lists, so the opponent index the MOVED packet should carry is 1. -/
def c6_dummy : Invitation := ⟨INV_OPEN_STATE, 0, 1, 2, 1, none⟩

def c6_inv : Invitation := ⟨INV_ACCEPTED_STATE, 0, 1, 1, 2, some game_create⟩

def c6_world : World :=
  ⟨[c6_dummy, c6_inv], [[some 0, some 1], [some 0, some 1]], [1500, 1500]⟩

/-- C7 witness world: one OPEN invitation, source client 0 with role FIRST,
target client 1 with role SECOND; local index 0 on both sides. -/
def c7_inv : Invitation := ⟨INV_OPEN_STATE, 0, 1, 1, 2, none⟩

def c7_world : World := ⟨[c7_inv], [[some 0], [some 0]], [1500, 1500]⟩

/-- C8 witness world: one OPEN invitation from client 0 (source) to
client 1 (target), local index 0 on both sides. -/
def c8_world : World := ⟨[c7_inv], [[some 0], [some 0]], [1500, 1500]⟩

/-- The world after the C7 witness acceptance: the invitation has become
ACCEPTED and holds a fresh game. -/
def c7_accepted_world : World :=
  ⟨[⟨INV_ACCEPTED_STATE, 0, 1, 1, 2, some game_create⟩], [[some 0], [some 0]], [1500, 1500]⟩

/-- The ACCEPTED packet produced in the C7 witness run: source index 0,
payload the rendered initial state (the source moves first). -/
def c7_pkt : Packet := ⟨PktType.accepted, 0, 0, some (game_unparse_state game_create)⟩

/-! ## Helper lemmas -/

theorem find_port_loop_none (argv : List String) :
    ∀ fuel idx, argv.length ≤ idx + fuel →
      (∀ i, idx ≤ i → i + 1 < argv.length → argv.getD i "" ≠ "-p") →
      find_port_loop argv idx = none := by
  intro fuel
  induction fuel with
  | zero =>
      intro idx hle _h
      unfold find_port_loop
      rw [if_neg (by omega)]
  | succ n ih =>
      intro idx hle h
      unfold find_port_loop
      split
      · rename_i hlt
        rw [if_neg]
        · exact ih (idx + 1) (by omega) (fun i h1 h2 => h i (by omega) h2)
        · rintro ⟨hp, hidx⟩
          exact h idx le_rfl (by omega) hp
      · rfl

theorem remove_invitation_eq_none (l : List (Option Nat)) (ref : Nat) :
    remove_invitation l ref = none ↔ some ref ∉ l := by
  induction l with
  | nil => simp [remove_invitation]
  | cons s rest ih =>
      by_cases hs : s = some ref
      · subst hs
        simp [remove_invitation]
      · simp only [remove_invitation, if_neg hs]
        cases hrec : remove_invitation rest ref with
        | none =>
            simp only [List.mem_cons]
            constructor
            · intro _ hmem
              rcases hmem with h | h
              · exact hs h.symm
              · exact (ih.mp hrec) h
            · intro _
              trivial
        | some p =>
            simp only [List.mem_cons]
            constructor
            · intro hx
              exact Option.noConfusion hx
            · intro hmem
              have hm : some ref ∈ rest := by
                by_contra hnot
                rw [ih.mpr hnot] at hrec
                exact Option.noConfusion hrec
              exact absurd (Or.inr hm) hmem

theorem remove_invitation_spec (l : List (Option Nat)) (ref : Nat) (l' : List (Option Nat))
    (i : Nat) (h : remove_invitation l ref = some (l', i)) :
    l.getD i none = some ref ∧ l' = l.set i none ∧ i < l.length := by
  induction l generalizing l' i with
  | nil => exact Option.noConfusion h
  | cons s rest ih =>
      by_cases hs : s = some ref
      · subst hs
        rw [remove_invitation, if_pos rfl] at h
        injection h with h1
        injection h1 with h2 h3
        subst h2
        subst h3
        refine ⟨rfl, rfl, by simp⟩
      · rw [remove_invitation, if_neg hs] at h
        cases hrec : remove_invitation rest ref with
        | none =>
            rw [hrec] at h
            exact Option.noConfusion h
        | some p =>
            rw [hrec] at h
            injection h with h1
            injection h1 with h2 h3
            subst h2
            subst h3
            obtain ⟨hg, hset, hlt⟩ := ih p.1 p.2 (by rw [hrec])
            refine ⟨hg, by rw [hset]; rfl, by simpa using hlt⟩

theorem remove_invitation_not_mem (l : List (Option Nat)) (ref : Nat) (l' : List (Option Nat))
    (i : Nat) (h : remove_invitation l ref = some (l', i)) (hc : l.count (some ref) ≤ 1) :
    some ref ∉ l' := by
  induction l generalizing l' i with
  | nil => exact Option.noConfusion h
  | cons s rest ih =>
      by_cases hs : s = some ref
      · subst hs
        rw [remove_invitation, if_pos rfl] at h
        injection h with h1
        injection h1 with h2 h3
        subst h2
        have hcr : rest.count (some ref) = 0 := by
          rw [List.count_cons_self] at hc
          omega
        have hnm : some ref ∉ rest := by
          rw [← List.count_pos_iff]
          omega
        simp only [List.mem_cons]
        rintro (hx | hx)
        · exact Option.noConfusion hx
        · exact hnm hx
      · rw [remove_invitation, if_neg hs] at h
        cases hrec : remove_invitation rest ref with
        | none =>
            rw [hrec] at h
            exact Option.noConfusion h
        | some p =>
            rw [hrec] at h
            injection h with h1
            injection h1 with h2 h3
            subst h2
            have hcr : rest.count (some ref) ≤ 1 := by
              rw [List.count_cons] at hc
              omega
            have hrest := ih p.1 p.2 (by rw [hrec]) hcr
            simp only [List.mem_cons]
            rintro (hx | hx)
            · exact hs hx.symm
            · exact hrest hx

theorem mem_of_getD_eq (l : List (Option Nat)) (i : Nat) (ref : Nat)
    (h : l.getD i none = some ref) : some ref ∈ l := by
  induction l generalizing i with
  | nil => simp [List.getD] at h
  | cons s rest ih =>
      cases i with
      | zero =>
          simp only [List.getD_cons_zero] at h
          simp [h]
      | succ n =>
          simp only [List.getD_cons_succ] at h
          exact List.mem_cons_of_mem _ (ih n h)

theorem listOf_setList_ne (w : World) (a b : Nat) (l : List (Option Nat)) (h : b ≠ a) :
    listOf (setList w a l) b = listOf w b := by
  unfold listOf setList
  simp only [List.getD_eq_getElem?_getD]
  rw [List.getElem?_set_ne (fun he => h he.symm)]

theorem listOf_setList_self (w : World) (a : Nat) (l : List (Option Nat))
    (h : a < w.lists.length) : listOf (setList w a l) a = l := by
  unfold listOf setList
  simp only [List.getD_eq_getElem?_getD]
  rw [List.getElem?_set_self h]
  rfl

theorem listOf_lt_length (w : World) (c : Nat) (h : listOf w c ≠ []) :
    c < w.lists.length := by
  by_contra hc
  exact h (by unfold listOf; rw [List.getD_eq_default _ _ (by omega)])

/-! ## Claims -/

/-- Claim C1: the claim says that when the input stream reaches EOF before
any byte of the 16-byte header is read, proto_recv_packet reports a
distinct end-of-stream condition and jeux_client_service leaves its
receive loop and terminates.  The code instead tests only rio_readn == -1;
rio_readn returns the short count 0 at EOF, so proto_recv_packet returns
0, the same code as a successful reception, leaves the header buffer
stale, and the service loop condition keeps the loop running.  Only an
actual read error (-1) ends the loop. -/
theorem claim_C1_eof_not_distinguished :
    (proto_recv_packet zero_hdr ⟨[], false⟩).ret = 0 ∧
    (proto_recv_packet zero_hdr ⟨[], false⟩).hdr = zero_hdr ∧
    service_loop_continues (proto_recv_packet zero_hdr ⟨[], false⟩).ret = true ∧
    (proto_recv_packet zero_hdr ⟨[], true⟩).ret = -1 ∧
    service_loop_continues (-1) = false := by
  decide

/-- Claim C2: the claim says that after the source (role FIRST, rating
1500) wins by three-in-a-row against an equally rated opponent, the source
ends at 1516 and the opponent at 1484.  The Elo arithmetic itself gives
(1516, 1484) for (winner, loser), but client_make_move posts
player_post_result(target-player, source-player, winner-role): the winner
role 1 is read as "player1 (the target) won", so the target ends at 1516
and the winning source at 1484 - the opposite of the claim. -/
theorem claim_C2_winner_posted_as_loser :
    player_post_result 1500 1500 1 = (1516, 1484) ∧
    (client_make_move c2_world 0 0 ['3']).map (fun r => r.1.ratings) = some [1484, 1516] ∧
    check (c2_game.board.set 2 1) = 1 := by
  have hppr : player_post_result 1500 1500 1 = (1516, 1484) := by
    norm_num [player_post_result, eloExpected, ratTrunc]
  refine ⟨hppr, ?_, by decide⟩
  have h0 : (client_make_move c2_world 0 0 ['3']).map (fun r => r.1.ratings) =
      some ((([1500, 1500] : List Int).set 1 (player_post_result 1500 1500 1).1).set 0
        (player_post_result 1500 1500 1).2) := rfl
  rw [h0, hppr]
  decide

/-- Claim C3 counterexample: started with -p but no following port value
(argv = jeux -p), the process exits with status 0, not a non-zero status
as the claim requires. -/
theorem claim_C3_counterexample :
    mainExitCode (main_model ["jeux", "-p"]) = some 0 := by
  decide

/-- Claim C3 as amended: if the process is started without a -p option, or
with -p present but no port value following it, it exits immediately -
with exit status 0 - without binding a listening socket. -/
theorem claim_C3_amended (argv : List String) (h : no_port_value argv) :
    main_model argv = MainOutcome.earlyExit 0 := by
  unfold main_model
  split
  · rfl
  · rw [find_port_loop_none argv argv.length 1 (by omega) h]

theorem claim_C3_amended_witness :
    main_model ["jeux", "-p"] = MainOutcome.earlyExit 0 :=
  claim_C3_amended ["jeux", "-p"]
    (fun _i h1 h2 => absurd h1 (Nat.not_le.mpr (Nat.lt_of_succ_lt_succ h2)))

set_option maxRecDepth 100000 in
/-- Claim C4: the claim says the two rating deltas computed by
player_post_result always sum to exactly zero.  The C computes in IEEE
binary64, and at ratings 1500 vs 7900 (gap 6400, integer exponent 16)
with result 1 the rounding breaks the symmetry: 1 + 1e16 rounds (tie to
even) to 1e16, so 32*(1 - E1) becomes the largest double below 32 and
truncates to +31, while 1 + pow(10,-16) rounds to exactly 1.0, so
32*(0 - E2) is exactly -32.0: deltas (+31, -32), sum -1.  The binary64
model exhibits this; at equal ratings (where every intermediate double is
exact) it reproduces the (1516, 1484) values of the C2 scenario, and a
draw there conserves. -/
theorem claim_C4_fp_nonconservation :
    player_post_result_fp 1500 7900 1 = (1531, 7868) ∧
    ((1531 - 1500 : Int) + (7868 - 7900) = -1) ∧
    player_post_result_fp 1500 7900 0 = (1515, 7884) ∧
    ((1515 - 1500 : Int) + (7884 - 7900) = -1) ∧
    player_post_result_fp 1500 1500 1 = (1516, 1484) ∧
    player_post_result_fp 1500 1500 0 = (1500, 1500) := by
  decide

/-- Claim C5: the claim says a successfully applied move that completes
three-in-a-row makes that role the winner, with ENDED role 0 reserved for
drawn games.  When the winning move also fills the board, check() tests
board-full first and returns 0: the game ends as a draw and both ENDED
packets carry role 0 even though role 1 has three-in-a-row. -/
theorem claim_C5_full_board_win_declared_draw :
    lineWin (c5_game.board.set 2 1) 1 = true ∧
    check (c5_game.board.set 2 1) = 0 ∧
    (client_make_move c5_world 0 0 ['3']).map
        (fun r => r.2.map fun p => (p.1, p.2.ptype, p.2.prole)) =
      some [(1, PktType.moved, 0), (0, PktType.ended, 0), (1, PktType.ended, 0)] := by
  decide

/-- Claim C6: the claim says the MOVED packet carries the opponent's own
local index.  When the caller is the invitation's target, the scan of the
source's list stores its result into targetid and sourceid is never
assigned, so the MOVED packet to the source carries id 0 even though the
source's local index for the invitation is 1 here. -/
theorem claim_C6_moved_id_not_opponent_index :
    (client_make_move c6_world 1 1 ['1']).map
        (fun r => r.2.map fun p => (p.1, p.2.ptype, p.2.pid)) =
      some [(0, PktType.moved, 0)] ∧
    find_slot (listOf c6_world 0) 1 = some 1 := by
  decide

/-- Claim C7: on a successful acceptance of an invitation with distinct
roles in 1..2, the ACCEPTED packet to the source carries the rendered
initial state exactly when the source's role is FIRST, and the string
returned for the accepting target's ACK payload is the rendered initial
state exactly when the target's role is FIRST. -/
theorem claim_C7_accept_payload_iff_first (w : World) (c id ref : Nat)
    (href : (listOf w c).getD id none = some ref)
    (hsr : (invOf w ref).source_role = 1 ∨ (invOf w ref).source_role = 2)
    (htr : (invOf w ref).target_role = 1 ∨ (invOf w ref).target_role = 2)
    (hne : (invOf w ref).source_role ≠ (invOf w ref).target_role)
    (w' : World) (dst : Nat) (pkt : Packet) (strp : Option (List Char))
    (hrun : client_accept_invitation w c id = some (w', (dst, pkt), strp)) :
    dst = (invOf w ref).source ∧
    (pkt.payload = some (game_unparse_state game_create) ↔ (invOf w ref).source_role = 1) ∧
    (strp = some (game_unparse_state game_create) ↔ (invOf w ref).target_role = 1) := by
  simp only [client_accept_invitation] at hrun
  rw [href] at hrun
  split at hrun
  · exact Option.noConfusion hrun
  · split at hrun
    · exact Option.noConfusion hrun
    · rename_i ref' heq
      injection heq with heqr
      subst heqr
      split at hrun
      · exact Option.noConfusion hrun
      · split at hrun
        · exact Option.noConfusion hrun
        · split at hrun
          · exact Option.noConfusion hrun
          · rename_i index hfind
            split at hrun
            · exact Option.noConfusion hrun
            · rename_i inv' hacc
              split at hrun
              · rename_i hsrole
                simp only [Option.some_inj, Prod.mk.injEq] at hrun
                obtain ⟨hw, ⟨hdst, hpkt⟩, hstrp⟩ := hrun
                refine ⟨hdst.symm, ?_, ?_⟩
                · subst hpkt
                  simp only [hsrole, iff_true]
                · subst hstrp
                  constructor
                  · intro hx
                    exact Option.noConfusion hx
                  · intro hx
                    exact absurd (hsrole.trans hx.symm) hne
              · rename_i hsrole
                have hs2 : (invOf w ref).source_role = 2 := hsr.resolve_left hsrole
                have ht1 : (invOf w ref).target_role = 1 := by
                  rcases htr with h | h
                  · exact h
                  · exact absurd (hs2.trans h.symm) hne
                simp only [Option.some_inj, Prod.mk.injEq] at hrun
                obtain ⟨hw, ⟨hdst, hpkt⟩, hstrp⟩ := hrun
                refine ⟨hdst.symm, ?_, ?_⟩
                · subst hpkt
                  simp only [ht1, hs2]
                  constructor
                  · intro hx
                    exact Option.noConfusion hx
                  · intro hx
                    exact absurd hx (by norm_num)
                · subst hstrp
                  simp only [ht1, iff_true]

theorem claim_C7_witness :
    (0 : Nat) = (invOf c7_world 0).source ∧
    (c7_pkt.payload = some (game_unparse_state game_create) ↔
      (invOf c7_world 0).source_role = 1) ∧
    ((none : Option (List Char)) = some (game_unparse_state game_create) ↔
      (invOf c7_world 0).target_role = 1) :=
  claim_C7_accept_payload_iff_first c7_world 1 0 0 rfl (Or.inl rfl) (Or.inr rfl)
    (by decide) c7_accepted_world 0 c7_pkt none rfl

/-- Claim C8: client_revoke_invitation fails exactly when the id is out of
range, the slot is empty, the caller is not the invitation's source, or
the invitation is not OPEN (under the reachability invariants: game
present iff not OPEN, the two participants are distinct, the invitation
occurs at most once in the caller's list and exactly once in the
target's); on success the invitation is removed from both participants'
lists and the target is sent a REVOKED packet whose id field is the
target's local index for the invitation. -/
theorem claim_C8_revoke_conditions (w : World) (c id : Nat)
    (hst : ∀ ref, (listOf w c).getD id none = some ref →
      ((invOf w ref).game = none ↔ (invOf w ref).state = INV_OPEN_STATE))
    (hdst : ∀ ref, (listOf w c).getD id none = some ref →
      (invOf w ref).source ≠ (invOf w ref).target)
    (hmir : ∀ ref, (listOf w c).getD id none = some ref → c = (invOf w ref).source →
      (invOf w ref).game = none → some ref ∈ listOf w (invOf w ref).target)
    (hcu : ∀ ref, (listOf w c).getD id none = some ref →
      (listOf w c).count (some ref) ≤ 1)
    (htu : ∀ ref, (listOf w c).getD id none = some ref →
      (listOf w (invOf w ref).target).count (some ref) ≤ 1) :
    ((client_revoke_invitation w c id = none) ↔
      ((listOf w c).length ≤ id ∨ (listOf w c).getD id none = none ∨
        (∃ ref, (listOf w c).getD id none = some ref ∧
          (c ≠ (invOf w ref).source ∨ (invOf w ref).state ≠ INV_OPEN_STATE)))) ∧
    (∀ w' dst pkt ref, client_revoke_invitation w c id = some (w', dst, pkt) →
      (listOf w c).getD id none = some ref →
      dst = (invOf w ref).target ∧ pkt.ptype = PktType.revoked ∧ pkt.prole = 0 ∧
      (listOf w (invOf w ref).target).getD pkt.pid none = some ref ∧
      some ref ∉ listOf w' c ∧ some ref ∉ listOf w' (invOf w ref).target) := by
  by_cases hlen : (listOf w c).length ≤ id
  · have hres : client_revoke_invitation w c id = none := by
      conv_lhs => rw [client_revoke_invitation]
      rw [if_pos hlen]
    refine ⟨by rw [hres]; simp [hlen], ?_⟩
    intro w' dst pkt ref hr _
    rw [hres] at hr
    exact Option.noConfusion hr
  · cases hslot : (listOf w c).getD id none with
    | none =>
        have hres : client_revoke_invitation w c id = none := by
          conv_lhs => rw [client_revoke_invitation]
          rw [if_neg hlen, hslot]
        refine ⟨by rw [hres]; simp [hslot], ?_⟩
        intro w' dst pkt ref hr _
        rw [hres] at hr
        exact Option.noConfusion hr
    | some ref =>
        by_cases hsrc : c = (invOf w ref).source
        · by_cases hgame : (invOf w ref).game = none
          · -- all checks pass: the revocation succeeds
            have hmem : some ref ∈ listOf w c := mem_of_getD_eq _ _ _ hslot
            obtain ⟨⟨lst', sid⟩, hrem⟩ :
                ∃ p, remove_invitation (listOf w c) ref = some p := by
              cases hx : remove_invitation (listOf w c) ref with
              | none => exact absurd ((remove_invitation_eq_none _ _).mp hx) (not_not_intro hmem)
              | some p => exact ⟨p, rfl⟩
            have hct : c ≠ (invOf w ref).target := hsrc ▸ hdst ref hslot
            have htl : listOf (setList w c lst') (invOf w ref).target
                = listOf w (invOf w ref).target :=
              listOf_setList_ne _ _ _ _ (Ne.symm hct)
            have hmemT : some ref ∈ listOf (setList w c lst') (invOf w ref).target := by
              rw [htl]
              exact hmir ref hslot hsrc hgame
            obtain ⟨⟨tl', tid⟩, hremT⟩ :
                ∃ p, remove_invitation (listOf (setList w c lst') (invOf w ref).target) ref
                  = some p := by
              cases hx : remove_invitation
                  (listOf (setList w c lst') (invOf w ref).target) ref with
              | none => exact absurd ((remove_invitation_eq_none _ _).mp hx) (not_not_intro hmemT)
              | some p => exact ⟨p, rfl⟩
            have hres : client_revoke_invitation w c id =
                some (setList (setList w c lst') (invOf w ref).target tl',
                  (invOf w ref).target,
                  (⟨PktType.revoked, tid, 0, none⟩ : Packet)) := by
              conv_lhs => rw [client_revoke_invitation]
              rw [if_neg hlen, hslot]
              dsimp only
              rw [if_neg (not_not_intro hsrc), if_neg (not_not_intro hgame), hrem]
              dsimp only
              rw [hremT]
            constructor
            · rw [hres]
              constructor
              · intro hx
                exact Option.noConfusion hx
              · intro hrhs
                exfalso
                rcases hrhs with hx | hx | ⟨ref', href', hx | hx⟩
                · exact hlen hx
                · exact Option.noConfusion hx
                · injection href' with he
                  subst he
                  exact hx hsrc
                · injection href' with he
                  subst he
                  exact hx ((hst ref hslot).mp hgame)
            · intro w' dst pkt ref' hr hslot'
              injection hslot' with he
              subst he
              rw [hres] at hr
              injection hr with h1
              injection h1 with h2 h3
              injection h3 with h4 h5
              subst h2
              subst h4
              subst h5
              obtain ⟨hgT, hsetT, _⟩ := remove_invitation_spec _ _ _ _ hremT
              have hclt : c < w.lists.length := by
                refine listOf_lt_length w c ?_
                intro he
                rw [he] at hlen
                exact hlen (by simp)
              have htlt : (invOf w ref).target < w.lists.length := by
                refine listOf_lt_length w _ ?_
                intro he
                have hm := hmir ref hslot hsrc hgame
                rw [he] at hm
                exact absurd hm (List.not_mem_nil _)
              refine ⟨rfl, rfl, rfl, ?_, ?_, ?_⟩
              · rw [← htl]
                exact hgT
              · rw [listOf_setList_ne _ _ _ _ hct,
                  listOf_setList_self _ _ _ hclt]
                exact remove_invitation_not_mem _ _ _ _ hrem (hcu ref hslot)
              · rw [listOf_setList_self _ _ _ (by simpa [setList] using htlt)]
                refine remove_invitation_not_mem _ _ _ _ hremT ?_
                rw [htl]
                exact htu ref hslot
          · -- the invitation holds a game: not in the OPEN state
            have hres : client_revoke_invitation w c id = none := by
              conv_lhs => rw [client_revoke_invitation]
              rw [if_neg hlen, hslot]
              dsimp only
              rw [if_neg (not_not_intro hsrc), if_pos hgame]
            refine ⟨?_, ?_⟩
            · rw [hres]
              simp only [true_iff]
              refine Or.inr (Or.inr ⟨ref, rfl, Or.inr ?_⟩)
              intro hopen
              exact hgame ((hst ref hslot).mpr hopen)
            · intro w' dst pkt ref' hr _
              rw [hres] at hr
              exact Option.noConfusion hr
        · -- the caller is not the source
          have hres : client_revoke_invitation w c id = none := by
            conv_lhs => rw [client_revoke_invitation]
            rw [if_neg hlen, hslot]
            dsimp only
            rw [if_pos hsrc]
          refine ⟨?_, ?_⟩
          · rw [hres]
            simp only [true_iff]
            exact Or.inr (Or.inr ⟨ref, rfl, Or.inl hsrc⟩)
          · intro w' dst pkt ref' hr _
            rw [hres] at hr
            exact Option.noConfusion hr

theorem claim_C8_witness :
    ((client_revoke_invitation c8_world 0 0 = none) ↔
      ((listOf c8_world 0).length ≤ 0 ∨ (listOf c8_world 0).getD 0 none = none ∨
        (∃ ref, (listOf c8_world 0).getD 0 none = some ref ∧
          (0 ≠ (invOf c8_world ref).source ∨ (invOf c8_world ref).state ≠ INV_OPEN_STATE)))) ∧
    (∀ w' dst pkt ref, client_revoke_invitation c8_world 0 0 = some (w', dst, pkt) →
      (listOf c8_world 0).getD 0 none = some ref →
      dst = (invOf c8_world ref).target ∧ pkt.ptype = PktType.revoked ∧ pkt.prole = 0 ∧
      (listOf c8_world (invOf c8_world ref).target).getD pkt.pid none = some ref ∧
      some ref ∉ listOf w' 0 ∧ some ref ∉ listOf w' (invOf c8_world ref).target) :=
  claim_C8_revoke_conditions c8_world 0 0
    (fun ref h => by injection h with he; subst he; decide)
    (fun ref h => by injection h with he; subst he; decide)
    (fun ref h _ _ => by injection h with he; subst he; decide)
    (fun ref h => by injection h with he; subst he; decide)
    (fun ref h => by injection h with he; subst he; decide)

/-- Claim C9: the claim says creg_wait_for_empty returns if and only if the
live-session count is zero (with register failing when full and the
barrier armed on the 0 to 1 transition).  The barrier is a plain
semaphore: a wait that returns consumes the token, so a second wait while
the registry is still empty blocks even though the count is 0, refuting
the if-and-only-if.  The trace: register, unregister, wait (returns),
wait (blocks with count = 0). -/
theorem claim_C9_second_wait_blocks_when_empty :
    creg_register (creg_init 2) 0 = RegOutcome.ok ⟨[some 0, none], 1, 0⟩ ∧
    creg_unregister ⟨[some 0, none], 1, 0⟩ 0 = some ⟨[none, none], 0, 1⟩ ∧
    creg_wait_for_empty ⟨[none, none], 0, 1⟩ = some ⟨[none, none], 0, 0⟩ ∧
    (⟨[none, none], 0, 0⟩ : Registry).count = 0 ∧
    creg_wait_for_empty ⟨[none, none], 0, 0⟩ = none := by
  decide

/-- Claim C10: game_parse_move accepts a move for role FIRST or SECOND
without any turn check (the next-mover comparison is conjoined with
role == NULL_ROLE), and game_apply_move never consults the next mover:
starting from a fresh game, two consecutive moves by role 1 both parse
and apply successfully. -/
theorem claim_C10_no_turn_enforcement :
    game_parse_move game_create 1 ['1'] = some ⟨0, 1⟩ ∧
    game_apply_move game_create ⟨0, 1⟩ = some c10_g1 ∧
    c10_g1.nextmover = 2 ∧
    game_parse_move c10_g1 1 ['2'] = some ⟨1, 1⟩ ∧
    (game_apply_move c10_g1 ⟨1, 1⟩).isSome = true := by
  decide

end Jeux
